import Mathlib

/-!
A verification development for the mass-crc32c repository.

The definitions below are a shallow embedding of the Go source
(`mass_crc32c.go` and the `hash/crc32` generic algorithm it relies on):
machine 32-bit words are `Nat` values kept below `2 ^ 32` by the
operations themselves, byte slices are `List Nat`, `io.Reader` call
results are explicit `ReadRet` records, Go `error` values are
`Option GoErr` (with `none` playing the role of `nil`).
-/

/-- Go `error` values as seen by this program: `io.EOF`, `os.ErrInvalid`
(returned by `(*os.File).Close` on a nil receiver), and any other error. -/
inductive GoErr where
  | eof
  | errInvalid
  | code (n : Nat)
deriving DecidableEq, Repr

/-- The Castagnoli polynomial constant of Go `hash/crc32`:
`Castagnoli = 0x82F63B78`. -/
def castagnoliPoly : Nat := 0x82F63B78

/-- One shift step of Go `hash/crc32.simpleMakeTable`:
`if crc&1 == 1 { crc = (crc >> 1) ^ poly } else { crc >>= 1 }`. -/
def crcTableStep (crc : Nat) : Nat :=
  if crc % 2 = 1 then (crc / 2) ^^^ castagnoliPoly else crc / 2

/-- Entry `i` of the Castagnoli table: eight `crcTableStep` iterations
starting from `i`, as in `simpleMakeTable`. -/
def crcTableEntry (i : Nat) : Nat :=
  crcTableStep (crcTableStep (crcTableStep (crcTableStep
    (crcTableStep (crcTableStep (crcTableStep (crcTableStep i)))))))

/-- The 32-bit all-ones mask; `x ^^^ mask32` is Go `^x` on `uint32`. -/
def mask32 : Nat := 0xFFFFFFFF

/-- Inner step of Go `hash/crc32.simpleUpdate`:
`crc = tab[byte(crc)^v] ^ (crc >> 8)`. -/
def crc32UpdateByte (crc b : Nat) : Nat :=
  crcTableEntry ((crc % 256) ^^^ b) ^^^ (crc / 256)

/-- Go `crc32.Update(crc, tab, p)` for the Castagnoli table:
complement, fold the bytes, complement again. -/
def crc32Update (crc : Nat) (p : List Nat) : Nat :=
  (p.foldl crc32UpdateByte (crc ^^^ mask32)) ^^^ mask32

/-- Go `crc32.Checksum(p, tab) = Update(0, tab, p)`. -/
def crc32Checksum (p : List Nat) : Nat := crc32Update 0 p

/-- Go `binary.BigEndian.PutUint32`: the four bytes of `x`,
most significant first. -/
def putUint32BE (x : Nat) : List Nat :=
  [x / 2 ^ 24 % 256, x / 2 ^ 16 % 256, x / 2 ^ 8 % 256, x % 256]

/-- The standard base64 alphabet used by Go `base64.StdEncoding`. -/
def b64Alphabet : List Char :=
  "ABCDEFGHIJKLMNOPQRSTUVWXYZabcdefghijklmnopqrstuvwxyz0123456789+/".toList

/-- The base64 digit for a 6-bit value. -/
def b64Char (n : Nat) : Char := b64Alphabet.getD n 'A'

/-- Go `base64.StdEncoding.EncodeToString`: groups of three bytes become
four digits, a final group of one or two bytes is padded with `=`. -/
def base64Encode : List Nat → List Char
  | [] => []
  | [b0] => [b64Char (b0 / 4), b64Char (b0 % 4 * 16), '=', '=']
  | [b0, b1] =>
    [b64Char (b0 / 4), b64Char (b0 % 4 * 16 + b1 / 16), b64Char (b1 % 16 * 4), '=']
  | b0 :: b1 :: b2 :: rest =>
    b64Char (b0 / 4) :: b64Char (b0 % 4 * 16 + b1 / 16) ::
      b64Char (b1 % 16 * 4 + b2 / 64) :: b64Char (b2 % 64) :: base64Encode rest

/-- The final encoding performed by `CRCReader` on end-of-stream:
big-endian bytes of the 32-bit checksum, base64-encoded. -/
def encodeChecksum (checksum : Nat) : String :=
  String.mk (base64Encode (putUint32BE checksum))

/-- The result of one `reader.Read(buf)` call: the `n` bytes written into
the buffer and the returned error (`none` is Go `nil`). -/
structure ReadRet where
  bytes : List Nat
  err : Option GoErr
deriving DecidableEq, Repr

/-- The loop of `CRCReader`: `switch n, err := reader.Read(buf); err`.
`case nil` folds `buf[:n]` into the checksum and adds `n` to the size;
`case io.EOF` returns the encoded checksum, the size and a nil error;
`default` returns `("", 0, err)`.  The outer `Option` is `none` when the
modelled read sequence is exhausted without the loop terminating. -/
def crcLoop (checksum fileSize : Nat) : List ReadRet → Option (String × Nat × Option GoErr)
  | [] => none
  | r :: rest =>
    match r.err with
    | none => crcLoop (crc32Update checksum r.bytes) (fileSize + r.bytes.length) rest
    | some GoErr.eof => some (encodeChecksum checksum, fileSize, none)
    | some e => some ("", 0, some e)

/-- `CRCReader` from `mass_crc32c.go`: starts from
`crc32.Checksum([]byte(""), table)` and a zero size, then runs the loop. -/
def CRCReader (reads : List ReadRet) : Option (String × Nat × Option GoErr) :=
  crcLoop (crc32Checksum []) 0 reads

/-- A successful read delivering `chunk` with a nil error. -/
def okRead (chunk : List Nat) : ReadRet := ReadRet.mk chunk none

/-- A terminal read delivering no bytes and `io.EOF`. -/
def eofRead : ReadRet := ReadRet.mk [] (some GoErr.eof)

/-- A well-behaved byte source: each chunk on its own successful read,
then end-of-stream signalled on a dedicated final call. -/
def sourceOfChunks (cs : List (List Nat)) : List ReadRet :=
  cs.map okRead ++ [eofRead]

/-- Split a byte sequence into successive chunks of at most `k` bytes
(every chunk full except possibly the last); models a source delivering
the sequence through a buffer of size `k`. -/
def chunksOf (k : Nat) : List Nat → List (List Nat)
  | [] => []
  | x :: xs => (x :: xs.take (k - 1)) :: chunksOf k (xs.drop (k - 1))
termination_by l => l.length
decreasing_by
  simp only [List.length_drop, List.length_cons]
  omega

/-- The number of data-delivering read calls the `CRCReader` loop makes
on a read sequence before terminating: one per nil-error read consumed;
`none` when the loop does not terminate on the sequence. -/
def crcReadCount : List ReadRet → Option Nat
  | [] => none
  | r :: rest =>
    match r.err with
    | none => (crcReadCount rest).map (· + 1)
    | some _ => some 0

/-- The bytes of an ASCII string, as fed to the checksum. -/
def strBytes (s : String) : List Nat := s.toList.map Char.toNat

def shortPayload : String := "short test data"

def shortCRC : String := "4AmyZA=="

def checkPayload : String := "123456789"

/-- Output and error-sink lines written by the program, one constructor
per `Fprintf` format used by the handlers. -/
inductive Line where
  | errLine (path : String) (e : GoErr)
  | outLine (crc : String) (size : Nat) (path : String)
  | dirErrLine (path : String) (e : GoErr)
  | fileErrLine (path : String) (e : GoErr)
  | enteringLine (path : String)
  | ignoringLine (path : String)
deriving DecidableEq, Repr

/-- The five process-wide counters of `MassCRC32C`. -/
structure Stats where
  fileCount : Nat
  fileErrorCount : Nat
  directoryErrorCount : Nat
  ignoredFilesCount : Nat
  totalDataComputed : Nat
deriving DecidableEq, Repr

def Stats.zero : Stats := Stats.mk 0 0 0 0 0

/-- What the filesystem yields for a path: `os.Open` fails with an
error, or succeeds and the file then behaves as a sequence of read
results, with `closeErr` the error of the final `file.Close()`. -/
inductive FileOutcome where
  | openError (e : GoErr)
  | opened (reads : List ReadRet) (closeErr : Option GoErr)
deriving DecidableEq, Repr

/-- `pathToCRC` from `mass_crc32c.go`.  The deferred closure closes the
file when the function returns and prints an error line if the close
fails; when `os.Open` failed the file pointer is nil and the nil-receiver
`Close` returns `os.ErrInvalid`, producing an error line.  Returns the
lines printed by the deferred close together with the Go results
`(err, fileSize, crc)`. -/
def pathToCRC (fs : String → FileOutcome) (path : String) :
    Option (List Line × Option GoErr × Nat × String) :=
  match fs path with
  | FileOutcome.openError e =>
    some ([Line.errLine path GoErr.errInvalid], some e, 0, "")
  | FileOutcome.opened reads closeErr =>
    (CRCReader reads).map fun r =>
      (match closeErr with
       | some ce => [Line.errLine path ce]
       | none => [],
       r.2.2, r.2.1, r.1)

/-- `fileHandler` from `mass_crc32c.go`: on a `pathToCRC` error, print
one error line and bump `fileErrorCount`; on success, print the result
line and bump `fileCount` and `totalDataComputed`.  Returns the updated
counters, the lines printed during the call (the deferred-close lines of
`pathToCRC` come first), and the handler's returned error, which is nil
on both branches. -/
def fileHandler (fs : String → FileOutcome) (path : String) (st : Stats) :
    Option (Stats × List Line × Option GoErr) :=
  (pathToCRC fs path).map fun r =>
    match r with
    | (lines, some e, _, _) =>
      ({ st with fileErrorCount := st.fileErrorCount + 1 },
       lines ++ [Line.errLine path e], none)
    | (lines, none, size, crc) =>
      ({ st with fileCount := st.fileCount + 1,
                 totalDataComputed := st.totalDataComputed + size },
       lines ++ [Line.outLine crc size path], none)

/-- `queueHandler` from `mass_crc32c.go`: consume queued paths in order,
invoking the handler on each; stop early exactly when the handler
returns a non-nil error.  Returns the final state and the list of paths
the handler was invoked on; `none` when a handler invocation is
undefined (a non-terminating modelled read sequence). -/
def queueHandler {σ : Type} (handler : String → σ → Option (σ × Option GoErr)) :
    List String → σ → Option (σ × List String)
  | [], s => some (s, [])
  | p :: ps, s =>
    match handler p s with
    | none => none
    | some (s2, none) =>
      (queueHandler handler ps s2).map fun r => (r.1, p :: r.2)
    | some (s2, some _) => some (s2, [p])

/-- `fileHandler` as a worker step over the state `(counters, lines so far)`. -/
def fileHandlerStep (fs : String → FileOutcome) (path : String)
    (s : Stats × List Line) : Option ((Stats × List Line) × Option GoErr) :=
  (fileHandler fs path s.1).map fun r => ((r.1, s.2 ++ r.2.1), r.2.2)

/-- The kind of a directory entry, as tested by `dir.IsDir()` and
`dir.Type().IsRegular()`. -/
inductive EntryKind where
  | dir
  | regular
  | other
deriving DecidableEq, Repr

/-- One callback of the directory walk: the path, the directory entry
(`none` models a nil `fs.DirEntry`), and the traversal error. -/
structure WalkEvent where
  path : String
  entry : Option EntryKind
  err : Option GoErr
deriving DecidableEq, Repr

/-- `walkHandler` from `mass_crc32c.go`.  Returns the updated counters,
the lines printed, the path enqueued (if any) and the returned error;
the outer `Option` is `none` when the code dereferences a nil
`fs.DirEntry` through `dir.IsDir()` (a runtime panic). -/
def walkHandler (interrupted : Bool) (ev : WalkEvent) (st : Stats) :
    Option (Stats × List Line × Option String × Option GoErr) :=
  if interrupted then some (st, [], none, some GoErr.eof)
  else
    match ev.err with
    | some e =>
      match ev.entry with
      | none => none
      | some EntryKind.dir =>
        some ({ st with directoryErrorCount := st.directoryErrorCount + 1 },
              [Line.dirErrLine ev.path e], none, none)
      | some _ =>
        some ({ st with fileErrorCount := st.fileErrorCount + 1 },
              [Line.fileErrLine ev.path e], none, none)
    | none =>
      match ev.entry with
      | none => none
      | some EntryKind.dir => some (st, [Line.enteringLine ev.path], none, none)
      | some EntryKind.regular => some (st, [], some ev.path, none)
      | some EntryKind.other =>
        some ({ st with ignoredFilesCount := st.ignoredFilesCount + 1 },
              [Line.ignoringLine ev.path], none, none)

/-- The directory-tree producer phase of an uninterrupted run: fold
`walkHandler` over the walk callbacks, accumulating printed lines and
the queued paths; the walk stops early if the handler returns a non-nil
error (it never does while not interrupted). -/
def walkRun : List WalkEvent → Stats → Option (Stats × List Line × List String)
  | [], st => some (st, [], [])
  | ev :: rest, st =>
    match walkHandler false ev st with
    | none => none
    | some (st2, lines, enq, some _) =>
      some (st2, lines, match enq with | some p => [p] | none => [])
    | some (st2, lines, enq, none) =>
      (walkRun rest st2).map fun r =>
        (r.1, lines ++ r.2.1,
         match enq with | some p => p :: r.2.2 | none => r.2.2)

/-- A full uninterrupted run over the walk callbacks `events` against
filesystem `fs`: producer phase, then the worker consumes the queue with
`fileHandler`.  Yields the final counters, all lines, and the list of
queued paths the worker handled. -/
def fullRun (fs : String → FileOutcome) (events : List WalkEvent) :
    Option (Stats × List Line × List String) :=
  match walkRun events Stats.zero with
  | none => none
  | some (st1, l1, queue) =>
    (queueHandler (fileHandlerStep fs) queue (st1, l1)).map fun r =>
      (r.1.1, r.1.2, r.2)

/-- Whether the `CRCReader` loop terminates on a read sequence: some
read carries a non-nil error. -/
def srcTerminates (reads : List ReadRet) : Bool :=
  reads.any fun r => r.err.isSome

/-- Whether handling a path is defined in the model: an open error
terminates at once, an opened file needs a terminating read sequence. -/
def fileTerminates : FileOutcome → Bool
  | FileOutcome.openError _ => true
  | FileOutcome.opened reads _ => srcTerminates reads

/-- Whether a path is successfully checksummed: the open succeeds and
`CRCReader` returns a nil error. -/
def pathIsSuccess (fs : String → FileOutcome) (p : String) : Bool :=
  match fs p with
  | FileOutcome.openError _ => false
  | FileOutcome.opened reads _ =>
    match CRCReader reads with
    | some (_, _, none) => true
    | _ => false

/-- The byte count `CRCReader` reports for a successfully checksummed
path; `0` for a failed one. -/
def pathSuccessSize (fs : String → FileOutcome) (p : String) : Nat :=
  match fs p with
  | FileOutcome.openError _ => 0
  | FileOutcome.opened reads _ =>
    match CRCReader reads with
    | some (_, size, none) => size
    | _ => 0

/-- The counter update one `fileHandler` call performs on a path. -/
def statUpd (fs : String → FileOutcome) (p : String) (st : Stats) : Stats :=
  if pathIsSuccess fs p then
    { st with fileCount := st.fileCount + 1,
              totalDataComputed := st.totalDataComputed + pathSuccessSize fs p }
  else { st with fileErrorCount := st.fileErrorCount + 1 }

/-- The counters after the worker has consumed a list of paths. -/
def queueStats (fs : String → FileOutcome) (ps : List String) (st : Stats) : Stats :=
  ps.foldl (fun s p => statUpd fs p s) st

/-- A walk callback reporting a traversal error for a directory entry. -/
def isDirErrEv (ev : WalkEvent) : Bool :=
  match ev.err, ev.entry with
  | some _, some EntryKind.dir => true
  | _, _ => false

/-- A walk callback reporting a traversal error for a non-directory entry. -/
def isFileErrEv (ev : WalkEvent) : Bool :=
  match ev.err, ev.entry with
  | some _, some EntryKind.regular => true
  | some _, some EntryKind.other => true
  | _, _ => false

/-- An error-free walk callback for a non-regular, non-directory entry. -/
def isIgnoredEv (ev : WalkEvent) : Bool :=
  match ev.err, ev.entry with
  | none, some EntryKind.other => true
  | _, _ => false

/-- An error-free walk callback for a regular file: its path is queued. -/
def isQueuedEv (ev : WalkEvent) : Bool :=
  match ev.err, ev.entry with
  | none, some EntryKind.regular => true
  | _, _ => false

/-- The regular-file paths the walk enqueues, in order. -/
def regularQueued (events : List WalkEvent) : List String :=
  (events.filter isQueuedEv).map WalkEvent.path

/-- The counter update one uninterrupted `walkHandler` call performs. -/
def walkStatUpd (ev : WalkEvent) (st : Stats) : Stats :=
  if isDirErrEv ev then
    { st with directoryErrorCount := st.directoryErrorCount + 1 }
  else if isFileErrEv ev then
    { st with fileErrorCount := st.fileErrorCount + 1 }
  else if isIgnoredEv ev then
    { st with ignoredFilesCount := st.ignoredFilesCount + 1 }
  else st

/-- The counters after the producer phase. -/
def walkStats (events : List WalkEvent) (st : Stats) : Stats :=
  events.foldl (fun s ev => walkStatUpd ev s) st

def countDirErrEv (events : List WalkEvent) : Nat := (events.filter isDirErrEv).length

def countFileErrEv (events : List WalkEvent) : Nat := (events.filter isFileErrEv).length

def countIgnoredEv (events : List WalkEvent) : Nat := (events.filter isIgnoredEv).length

def pathA : String := "a"

def pathB : String := "b"

/-- A filesystem on which every open fails with error code 3. -/
def fsOpenFail : String → FileOutcome := fun _ => FileOutcome.openError (GoErr.code 3)

/-- A filesystem on which every open succeeds but the first read fails
with error code 4; the close succeeds. -/
def fsReadFail : String → FileOutcome :=
  fun _ => FileOutcome.opened [ReadRet.mk [] (some (GoErr.code 4))] none

/-- A filesystem of two-byte files that read and close cleanly. -/
def fsSmallFile : String → FileOutcome :=
  fun _ => FileOutcome.opened [okRead [104, 105], eofRead] none

/-- A walk callback reporting a traversal error for a regular file. -/
def evFileErr : WalkEvent := WalkEvent.mk pathA (some EntryKind.regular) (some (GoErr.code 1))

/-- A walk callback reporting a traversal error for a directory. -/
def evDirErr : WalkEvent := WalkEvent.mk pathA (some EntryKind.dir) (some (GoErr.code 1))

/-- An error-free walk callback for a non-regular, non-directory entry. -/
def evIgnored : WalkEvent := WalkEvent.mk pathA (some EntryKind.other) none

/-- An error-free walk callback for a regular file. -/
def evRegular : WalkEvent := WalkEvent.mk pathB (some EntryKind.regular) none

theorem xor_mask_cancel (x : Nat) : (x ^^^ mask32) ^^^ mask32 = x := by
  rw [Nat.xor_assoc, Nat.xor_self, Nat.xor_zero]

theorem crc32Update_append (c : Nat) (p q : List Nat) :
    crc32Update (crc32Update c p) q = crc32Update c (p ++ q) := by
  unfold crc32Update
  rw [List.foldl_append, xor_mask_cancel]

theorem crc32Update_nil (c : Nat) : crc32Update c [] = c := by
  unfold crc32Update
  rw [List.foldl_nil, xor_mask_cancel]

theorem foldl_crc32Update (c : Nat) (cs : List (List Nat)) :
    cs.foldl crc32Update c = crc32Update c cs.flatten := by
  induction cs generalizing c with
  | nil => rw [List.foldl_nil, List.flatten_nil, crc32Update_nil]
  | cons ch cs ih => rw [List.foldl_cons, List.flatten_cons, ih, crc32Update_append]

theorem crcLoop_okReads (cs : List (List Nat)) :
    ∀ (c n : Nat) (rest : List ReadRet),
      crcLoop c n (cs.map okRead ++ rest) =
        crcLoop (cs.foldl crc32Update c) (n + cs.flatten.length) rest := by
  induction cs with
  | nil => intro c n rest; simp [List.flatten_nil]
  | cons ch cs ih =>
    intro c n rest
    simp only [List.map_cons, List.cons_append, crcLoop, okRead, List.foldl_cons,
      List.flatten_cons, List.length_append, List.append_eq]
    rw [ih]
    congr 1
    omega

theorem CRCReader_sourceOfChunks (cs : List (List Nat)) :
    CRCReader (sourceOfChunks cs) =
      some (encodeChecksum (crc32Checksum cs.flatten), cs.flatten.length, none) := by
  unfold CRCReader sourceOfChunks
  rw [crcLoop_okReads, foldl_crc32Update]
  show some _ = _
  rw [crc32Checksum, crc32Checksum, crc32Update_append, List.nil_append, Nat.zero_add]

theorem chunksOf_flatten (k : Nat) (b : List Nat) : (chunksOf k b).flatten = b := by
  induction b using chunksOf.induct k with
  | case1 => simp [chunksOf]
  | case2 x xs ih =>
    simp only [chunksOf, List.flatten_cons, ih, List.cons_append, List.take_append_drop]

theorem chunksOf_length (k : Nat) (b : List Nat) :
    1 ≤ k → (chunksOf k b).length = (b.length + k - 1) / k := by
  induction b using chunksOf.induct k with
  | case1 =>
    intro hk
    simp only [chunksOf, List.length_nil, Nat.zero_add]
    rw [Nat.div_eq_of_lt (by omega)]
  | case2 x xs ih =>
    intro hk
    simp only [chunksOf, List.length_cons]
    rw [ih hk, List.length_drop]
    have h1 : xs.length + 1 + k - 1 = xs.length + k := by omega
    rw [h1, Nat.add_div_right _ hk]
    rcases le_or_lt (k - 1) xs.length with h2 | h2
    · have h3 : xs.length - (k - 1) + k - 1 = xs.length := by omega
      rw [h3]
    · have h3 : xs.length - (k - 1) + k - 1 = k - 1 := by omega
      rw [h3, Nat.div_eq_of_lt (by omega), Nat.div_eq_of_lt (by omega)]

theorem crcReadCount_sourceOfChunks (cs : List (List Nat)) :
    crcReadCount (sourceOfChunks cs) = some cs.length := by
  induction cs with
  | nil => rfl
  | cons ch cs ih =>
    simp only [sourceOfChunks, List.map_cons, List.cons_append, crcReadCount, okRead,
      List.append_eq] at ih ⊢
    rw [ih]
    rfl

set_option maxRecDepth 4000

/-- The generic CRC32C algorithm of `hash/crc32` on the published check
vector: the checksum of `"123456789"` is the Castagnoli check value
`0xE3069283`. -/
theorem crc32c_check_value : crc32Checksum (strBytes checkPayload) = 0xE3069283 := by decide

/-- The end-to-end vector from `mass_crc32c_test.go`: payload
`"short test data"` yields checksum string `"4AmyZA=="` and length 15. -/
theorem crc32c_repo_vector :
    CRCReader (sourceOfChunks [strBytes shortPayload]) = some (shortCRC, 15, none) := by
  decide

/-- C1: for every byte sequence `b` presented through a byte source that
delivers `b` in chunks and then signals end-of-stream, `CRCReader`
returns the standard CRC32C (Castagnoli) value of `b` encoded as 4
big-endian bytes in base64, together with the byte count `b.length` and
a nil error; the case `cs = []` is the empty input, yielding the CRC32C
of the empty string and byte count 0. -/
theorem CRCReader_computes_crc32c (cs : List (List Nat)) :
    CRCReader (sourceOfChunks cs) =
      some (encodeChecksum (crc32Checksum cs.flatten), cs.flatten.length, none) :=
  CRCReader_sourceOfChunks cs

/-- C2: for every chunk size `c ≥ 1` and input `b`, running `CRCReader`
over `b` delivered in successive chunks of at most `c * 1024` bytes
yields the same result as over `b` delivered in a single read. -/
theorem CRCReader_chunking_invariant (c : Nat) (b : List Nat) (h : 1 ≤ c) :
    CRCReader (sourceOfChunks (chunksOf (c * 1024) b)) =
      CRCReader (sourceOfChunks [b]) := by
  rw [CRCReader_sourceOfChunks, CRCReader_sourceOfChunks, chunksOf_flatten]
  simp

theorem CRCReader_chunking_invariant_witness :
    1 ≤ 1 ∧
      CRCReader (sourceOfChunks (chunksOf (1 * 1024) [7, 8, 9])) =
        CRCReader (sourceOfChunks [[7, 8, 9]]) :=
  ⟨by decide, CRCReader_chunking_invariant 1 [7, 8, 9] (by decide)⟩

/-- C3 (code bug): a read call that returns a non-zero byte count
together with `io.EOF` has its bytes dropped — `CRCReader` reacts to the
end-of-stream immediately, returning the checksum of the empty input and
byte count 0 rather than folding the delivered byte `97` in. -/
theorem CRCReader_drops_terminal_read_bytes :
    CRCReader [ReadRet.mk [97] (some GoErr.eof)] =
      some (encodeChecksum (crc32Checksum []), 0, none) ∧
    crc32Checksum [97] ≠ crc32Checksum [] := by
  exact ⟨rfl, by decide⟩

/-- C4: on a read returning any error other than `io.EOF`, `CRCReader`
aborts at once and returns exactly that error with an empty checksum
string and a byte count of 0, whatever was accumulated before. -/
theorem CRCReader_error_abort (cs : List (List Nat)) (bs : List Nat) (e : GoErr)
    (rest : List ReadRet) (h : e ≠ GoErr.eof) :
    CRCReader (cs.map okRead ++ ReadRet.mk bs (some e) :: rest) =
      some ("", 0, some e) := by
  unfold CRCReader
  rw [crcLoop_okReads]
  cases e with
  | eof => exact absurd rfl h
  | errInvalid => rfl
  | code n => rfl

theorem CRCReader_error_abort_witness :
    GoErr.code 5 ≠ GoErr.eof ∧
      CRCReader ([[1, 2]].map okRead ++ ReadRet.mk [3] (some (GoErr.code 5)) :: []) =
        some ("", 0, some (GoErr.code 5)) :=
  ⟨by decide, CRCReader_error_abort [[1, 2]] [3] (GoErr.code 5) [] (by decide)⟩

/-- C5: for a source that returns at most one full chunk per call and
signals end-of-stream on a dedicated extra call, the number of
data-delivering read calls the `CRCReader` loop makes equals
`⌈b.length / (s * 1024)⌉` where `s` is the configured read size in
kilobytes. -/
theorem CRCReader_read_call_count (s : Nat) (b : List Nat) (h : 1 ≤ s) :
    crcReadCount (sourceOfChunks (chunksOf (s * 1024) b)) =
      some ((b.length + s * 1024 - 1) / (s * 1024)) := by
  rw [crcReadCount_sourceOfChunks, chunksOf_length]
  omega

theorem CRCReader_read_call_count_witness :
    1 ≤ 1 ∧
      crcReadCount (sourceOfChunks (chunksOf (1 * 1024) [4, 5])) =
        some ((List.length [4, 5] + 1 * 1024 - 1) / (1 * 1024)) :=
  ⟨by decide, CRCReader_read_call_count 1 [4, 5] (by decide)⟩

theorem crcLoop_isSome (reads : List ReadRet) :
    srcTerminates reads = true → ∀ c n, (crcLoop c n reads).isSome = true := by
  induction reads with
  | nil => intro h; simp [srcTerminates] at h
  | cons r rest ih =>
    intro h c n
    cases hr : r.err with
    | none =>
      have hrest : srcTerminates rest = true := by
        simpa [srcTerminates, hr] using h
      simpa [crcLoop, hr] using ih hrest _ _
    | some e =>
      cases e <;> simp [crcLoop, hr]

theorem CRCReader_isSome (reads : List ReadRet) (h : srcTerminates reads = true) :
    (CRCReader reads).isSome = true :=
  crcLoop_isSome reads h _ _

theorem fileHandler_char (fs : String → FileOutcome) (p : String) (st : Stats)
    (h : fileTerminates (fs p) = true) :
    ∃ lines, fileHandler fs p st = some (statUpd fs p st, lines, none) := by
  cases hfs : fs p with
  | openError e =>
    refine ⟨[Line.errLine p GoErr.errInvalid, Line.errLine p e], ?_⟩
    simp [fileHandler, pathToCRC, statUpd, pathIsSuccess, hfs]
  | opened reads closeErr =>
    rw [hfs] at h
    have hs : srcTerminates reads = true := by simpa [fileTerminates] using h
    obtain ⟨r, hr⟩ := Option.isSome_iff_exists.mp (CRCReader_isSome reads hs)
    obtain ⟨str, size, errOpt⟩ := r
    cases closeErr with
    | none =>
      cases errOpt with
      | some e =>
        refine ⟨[Line.errLine p e], ?_⟩
        simp [fileHandler, pathToCRC, statUpd, pathIsSuccess, hfs, hr]
      | none =>
        refine ⟨[Line.outLine str size p], ?_⟩
        simp [fileHandler, pathToCRC, statUpd, pathIsSuccess, pathSuccessSize, hfs, hr]
    | some ce =>
      cases errOpt with
      | some e =>
        refine ⟨[Line.errLine p ce, Line.errLine p e], ?_⟩
        simp [fileHandler, pathToCRC, statUpd, pathIsSuccess, hfs, hr]
      | none =>
        refine ⟨[Line.errLine p ce, Line.outLine str size p], ?_⟩
        simp [fileHandler, pathToCRC, statUpd, pathIsSuccess, pathSuccessSize, hfs, hr]

theorem queueHandler_fileHandler (fs : String → FileOutcome) (ps : List String) :
    ∀ (st : Stats) (ls : List Line),
      (∀ p ∈ ps, fileTerminates (fs p) = true) →
        ∃ lF, queueHandler (fileHandlerStep fs) ps (st, ls) =
          some ((queueStats fs ps st, lF), ps) := by
  induction ps with
  | nil => intro st ls _; exact ⟨ls, rfl⟩
  | cons p ps ih =>
    intro st ls h
    obtain ⟨lines, hfh⟩ := fileHandler_char fs p st (h p (by simp))
    have hstep : fileHandlerStep fs p (st, ls) =
        some ((statUpd fs p st, ls ++ lines), none) := by
      simp [fileHandlerStep, hfh]
    obtain ⟨lF, hrec⟩ := ih (statUpd fs p st) (ls ++ lines)
      (fun q hq => h q (by simp [hq]))
    refine ⟨lF, ?_⟩
    simp only [queueHandler, hstep, hrec, Option.map_some]
    rfl

theorem queueStats_char (fs : String → FileOutcome) (ps : List String) :
    ∀ st : Stats,
      queueStats fs ps st =
        Stats.mk
          (st.fileCount + (ps.filter (fun p => pathIsSuccess fs p)).length)
          (st.fileErrorCount + (ps.filter (fun p => !pathIsSuccess fs p)).length)
          st.directoryErrorCount
          st.ignoredFilesCount
          (st.totalDataComputed +
            ((ps.filter (fun p => pathIsSuccess fs p)).map
                (fun p => pathSuccessSize fs p)).sum) := by
  induction ps with
  | nil => intro st; simp [queueStats]
  | cons p ps ih =>
    intro st
    rw [show queueStats fs (p :: ps) st = queueStats fs ps (statUpd fs p st) from rfl, ih]
    by_cases hp : pathIsSuccess fs p
    · simp only [statUpd, hp, if_pos, List.filter_cons, Bool.not_true, Bool.false_eq_true,
        if_true, List.length_cons, List.map_cons, List.sum_cons]
      simp [hp, Stats.mk.injEq]
      omega
    · simp only [statUpd, Bool.not_eq_true] at hp
      simp only [statUpd, hp, Bool.false_eq_true, if_false, List.filter_cons]
      simp [hp, Stats.mk.injEq]
      omega

theorem walkRun_char (events : List WalkEvent) :
    ∀ st : Stats,
      (∀ ev ∈ events, ev.entry.isSome = true) →
        ∃ lines, walkRun events st =
          some (walkStats events st, lines, regularQueued events) := by
  induction events with
  | nil => intro st _; exact ⟨[], rfl⟩
  | cons ev rest ih =>
    intro st h
    have hent : ev.entry.isSome = true := h ev (by simp)
    obtain ⟨k, hk⟩ := Option.isSome_iff_exists.mp hent
    have hrest : ∀ e ∈ rest, e.entry.isSome = true :=
      fun e he => h e (List.mem_cons_of_mem _ he)
    have hnext : walkStats (ev :: rest) st = walkStats rest (walkStatUpd ev st) := rfl
    cases he : ev.err with
    | some e =>
      cases k with
      | dir =>
        obtain ⟨lines, hr⟩ := ih (walkStatUpd ev st) hrest
        refine ⟨Line.dirErrLine ev.path e :: lines, ?_⟩
        simp only [walkRun, walkHandler, he, hk, if_false, Bool.false_eq_true, hnext]
        rw [show walkStatUpd ev st =
          { st with directoryErrorCount := st.directoryErrorCount + 1 } from by
            simp [walkStatUpd, isDirErrEv, he, hk]]
        rw [show walkStatUpd ev st =
          { st with directoryErrorCount := st.directoryErrorCount + 1 } from by
            simp [walkStatUpd, isDirErrEv, he, hk]] at hr
        simp only [hr, Option.map_some]
        rw [show regularQueued (ev :: rest) = regularQueued rest from by
          simp [regularQueued, List.filter_cons, isQueuedEv, he, hk]]
        rfl
      | regular =>
        obtain ⟨lines, hr⟩ := ih (walkStatUpd ev st) hrest
        refine ⟨Line.fileErrLine ev.path e :: lines, ?_⟩
        simp only [walkRun, walkHandler, he, hk, if_false, Bool.false_eq_true, hnext]
        rw [show walkStatUpd ev st =
          { st with fileErrorCount := st.fileErrorCount + 1 } from by
            simp [walkStatUpd, isDirErrEv, isFileErrEv, he, hk]]
        rw [show walkStatUpd ev st =
          { st with fileErrorCount := st.fileErrorCount + 1 } from by
            simp [walkStatUpd, isDirErrEv, isFileErrEv, he, hk]] at hr
        simp only [hr, Option.map_some]
        rw [show regularQueued (ev :: rest) = regularQueued rest from by
          simp [regularQueued, List.filter_cons, isQueuedEv, he, hk]]
        rfl
      | other =>
        obtain ⟨lines, hr⟩ := ih (walkStatUpd ev st) hrest
        refine ⟨Line.fileErrLine ev.path e :: lines, ?_⟩
        simp only [walkRun, walkHandler, he, hk, if_false, Bool.false_eq_true, hnext]
        rw [show walkStatUpd ev st =
          { st with fileErrorCount := st.fileErrorCount + 1 } from by
            simp [walkStatUpd, isDirErrEv, isFileErrEv, he, hk]]
        rw [show walkStatUpd ev st =
          { st with fileErrorCount := st.fileErrorCount + 1 } from by
            simp [walkStatUpd, isDirErrEv, isFileErrEv, he, hk]] at hr
        simp only [hr, Option.map_some]
        rw [show regularQueued (ev :: rest) = regularQueued rest from by
          simp [regularQueued, List.filter_cons, isQueuedEv, he, hk]]
        rfl
    | none =>
      cases k with
      | dir =>
        obtain ⟨lines, hr⟩ := ih (walkStatUpd ev st) hrest
        refine ⟨Line.enteringLine ev.path :: lines, ?_⟩
        simp only [walkRun, walkHandler, he, hk, if_false, Bool.false_eq_true, hnext]
        rw [show walkStatUpd ev st = st from by
          simp [walkStatUpd, isDirErrEv, isFileErrEv, isIgnoredEv, he, hk]]
        rw [show walkStatUpd ev st = st from by
          simp [walkStatUpd, isDirErrEv, isFileErrEv, isIgnoredEv, he, hk]] at hr
        simp only [hr, Option.map_some]
        rw [show regularQueued (ev :: rest) = regularQueued rest from by
          simp [regularQueued, List.filter_cons, isQueuedEv, he, hk]]
        rfl
      | regular =>
        obtain ⟨lines, hr⟩ := ih (walkStatUpd ev st) hrest
        refine ⟨lines, ?_⟩
        simp only [walkRun, walkHandler, he, hk, if_false, Bool.false_eq_true, hnext]
        rw [show walkStatUpd ev st = st from by
          simp [walkStatUpd, isDirErrEv, isFileErrEv, isIgnoredEv, he, hk]]
        rw [show walkStatUpd ev st = st from by
          simp [walkStatUpd, isDirErrEv, isFileErrEv, isIgnoredEv, he, hk]] at hr
        simp only [hr, Option.map_some]
        rw [show regularQueued (ev :: rest) = ev.path :: regularQueued rest from by
          simp [regularQueued, List.filter_cons, isQueuedEv, he, hk]]
        rfl
      | other =>
        obtain ⟨lines, hr⟩ := ih (walkStatUpd ev st) hrest
        refine ⟨Line.ignoringLine ev.path :: lines, ?_⟩
        simp only [walkRun, walkHandler, he, hk, if_false, Bool.false_eq_true, hnext]
        rw [show walkStatUpd ev st =
          { st with ignoredFilesCount := st.ignoredFilesCount + 1 } from by
            simp [walkStatUpd, isDirErrEv, isFileErrEv, isIgnoredEv, he, hk]]
        rw [show walkStatUpd ev st =
          { st with ignoredFilesCount := st.ignoredFilesCount + 1 } from by
            simp [walkStatUpd, isDirErrEv, isFileErrEv, isIgnoredEv, he, hk]] at hr
        simp only [hr, Option.map_some]
        rw [show regularQueued (ev :: rest) = regularQueued rest from by
          simp [regularQueued, List.filter_cons, isQueuedEv, he, hk]]
        rfl

theorem walkStats_char (events : List WalkEvent) :
    ∀ st : Stats,
      walkStats events st =
        Stats.mk st.fileCount (st.fileErrorCount + countFileErrEv events)
          (st.directoryErrorCount + countDirErrEv events)
          (st.ignoredFilesCount + countIgnoredEv events)
          st.totalDataComputed := by
  induction events with
  | nil =>
    intro st
    cases st
    simp [walkStats, countFileErrEv, countDirErrEv, countIgnoredEv]
  | cons ev rest ih =>
    intro st
    rw [show walkStats (ev :: rest) st = walkStats rest (walkStatUpd ev st) from rfl, ih]
    cases he : ev.err with
    | some e =>
      cases hk : ev.entry with
      | none =>
        simp [walkStatUpd, isDirErrEv, isFileErrEv, isIgnoredEv, countFileErrEv,
          countDirErrEv, countIgnoredEv, List.filter_cons, he, hk]
      | some k =>
        cases k <;>
          simp [walkStatUpd, isDirErrEv, isFileErrEv, isIgnoredEv, countFileErrEv,
            countDirErrEv, countIgnoredEv, List.filter_cons, he, hk, Stats.mk.injEq] <;>
          omega
    | none =>
      cases hk : ev.entry with
      | none =>
        simp [walkStatUpd, isDirErrEv, isFileErrEv, isIgnoredEv, countFileErrEv,
          countDirErrEv, countIgnoredEv, List.filter_cons, he, hk]
      | some k =>
        cases k <;>
          simp [walkStatUpd, isDirErrEv, isFileErrEv, isIgnoredEv, countFileErrEv,
            countDirErrEv, countIgnoredEv, List.filter_cons, he, hk, Stats.mk.injEq] <;>
          omega

theorem length_filter_partition {α : Type} (p : α → Bool) (l : List α) :
    (l.filter p).length + (l.filter (fun a => !p a)).length = l.length := by
  induction l with
  | nil => rfl
  | cons a l ih => by_cases h : p a <;> simp [List.filter_cons, h] <;> omega

/-- C6 counterexample: a run whose walk reports one traversal error for a
regular-file entry queues no path, yet ends with
`fileCount + fileErrorCount = 1`, so the sum does not equal the number of
regular-file paths that were queued and handled (0). -/
theorem fullRun_traversal_error_miscount :
    (fullRun fsSmallFile [evFileErr]).map
        (fun r => (r.1.fileCount + r.1.fileErrorCount, r.2.2.length)) = some (1, 0) ∧
      (1 : Nat) ≠ 0 :=
  ⟨rfl, by decide⟩

/-- C6 (amended): at the conclusion of every run,
`fileCount + fileErrorCount` equals the number of regular-file paths
queued and handled plus the number of non-directory traversal errors the
walk reported; `directoryErrorCount` and `ignoredFilesCount` tally the
directory traversal errors and the ignored entries of the walk alone;
`totalDataComputed` equals the sum of the byte counts of exactly the
successfully checksummed files. -/
theorem fullRun_counter_invariants (events : List WalkEvent) (fs : String → FileOutcome)
    (h1 : ∀ ev ∈ events, ev.entry.isSome = true)
    (h2 : ∀ p, fileTerminates (fs p) = true) :
    (fullRun fs events).map
        (fun r => (r.1.fileCount + r.1.fileErrorCount,
                   r.1.directoryErrorCount,
                   r.1.ignoredFilesCount,
                   r.1.totalDataComputed,
                   r.2.2)) =
      some ((regularQueued events).length + countFileErrEv events,
            countDirErrEv events,
            countIgnoredEv events,
            (((regularQueued events).filter (fun p => pathIsSuccess fs p)).map
                (fun p => pathSuccessSize fs p)).sum,
            regularQueued events) := by
  obtain ⟨l1, hwalk⟩ := walkRun_char events Stats.zero h1
  obtain ⟨lF, hq⟩ := queueHandler_fileHandler fs (regularQueued events)
    (walkStats events Stats.zero) l1 (fun p _ => h2 p)
  unfold fullRun
  rw [hwalk]
  simp only [hq, Option.map_some']
  rw [queueStats_char, walkStats_char]
  simp only [Stats.zero, Nat.zero_add, Option.map_some', Option.some.injEq, Prod.mk.injEq]
  have hpart :
      (List.filter (fun p => pathIsSuccess fs p) (regularQueued events)).length +
          (List.filter (fun p => !pathIsSuccess fs p) (regularQueued events)).length =
        (regularQueued events).length :=
    length_filter_partition _ _
  exact ⟨by omega, trivial⟩

theorem fullRun_counter_invariants_witness :
    (∀ ev ∈ [evDirErr, evFileErr, evIgnored, evRegular], ev.entry.isSome = true) ∧
      (fullRun fsSmallFile [evDirErr, evFileErr, evIgnored, evRegular]).map
          (fun r => (r.1.fileCount + r.1.fileErrorCount,
                     r.1.directoryErrorCount,
                     r.1.ignoredFilesCount,
                     r.1.totalDataComputed,
                     r.2.2)) =
        some ((regularQueued [evDirErr, evFileErr, evIgnored, evRegular]).length +
                countFileErrEv [evDirErr, evFileErr, evIgnored, evRegular],
              countDirErrEv [evDirErr, evFileErr, evIgnored, evRegular],
              countIgnoredEv [evDirErr, evFileErr, evIgnored, evRegular],
              (((regularQueued [evDirErr, evFileErr, evIgnored, evRegular]).filter
                    (fun p => pathIsSuccess fsSmallFile p)).map
                  (fun p => pathSuccessSize fsSmallFile p)).sum,
              regularQueued [evDirErr, evFileErr, evIgnored, evRegular]) :=
  ⟨by decide,
   fullRun_counter_invariants [evDirErr, evFileErr, evIgnored, evRegular] fsSmallFile
     (by decide) (fun p => rfl)⟩

/-- C7 counterexample: a failed open produces two error lines, not one —
the deferred close of the nil file handle reports `os.ErrInvalid` and
then the handler reports the open error. -/
theorem fileHandler_two_error_lines :
    (fileHandler fsOpenFail pathA Stats.zero).map (fun r => r.2.1.length) = some 2 ∧
      (2 : Nat) ≠ 1 :=
  ⟨rfl, by decide⟩

/-- C7 (amended): a recoverable failure is reflected in exactly one
counter increment; a failed read (with a clean close) yields exactly one
error line, while a failed open yields exactly two error lines — the
spurious `invalid argument` from closing the nil file handle followed by
the open error itself. -/
theorem fileHandler_error_reporting (fs : String → FileOutcome) (p : String)
    (st : Stats) (e : GoErr) (reads : List ReadRet) :
    (fs p = FileOutcome.openError e →
      fileHandler fs p st =
        some ({ st with fileErrorCount := st.fileErrorCount + 1 },
              [Line.errLine p GoErr.errInvalid, Line.errLine p e], none)) ∧
    (fs p = FileOutcome.opened reads none →
      CRCReader reads = some ("", 0, some e) →
      fileHandler fs p st =
        some ({ st with fileErrorCount := st.fileErrorCount + 1 },
              [Line.errLine p e], none)) := by
  constructor
  · intro h
    simp [fileHandler, pathToCRC, h]
  · intro h hr
    simp [fileHandler, pathToCRC, h, hr]

theorem fileHandler_error_reporting_witness :
    fileHandler fsOpenFail pathA Stats.zero =
        some (Stats.mk 0 1 0 0 0,
              [Line.errLine pathA GoErr.errInvalid, Line.errLine pathA (GoErr.code 3)],
              none) ∧
      fileHandler fsReadFail pathA Stats.zero =
        some (Stats.mk 0 1 0 0 0, [Line.errLine pathA (GoErr.code 4)], none) :=
  ⟨(fileHandler_error_reporting fsOpenFail pathA Stats.zero (GoErr.code 3) []).1 rfl,
   (fileHandler_error_reporting fsReadFail pathA Stats.zero (GoErr.code 4)
       [ReadRet.mk [] (some (GoErr.code 4))]).2 rfl rfl⟩

/-- C8: on a traversal error, `walkHandler` classifies by the entry's
kind — `directoryErrorCount` for a directory, `fileErrorCount` otherwise
— writes one log line, enqueues nothing and returns a nil error; an
error-free entry that is neither a directory nor a regular file bumps
`ignoredFilesCount`, writes one log line and is not enqueued. -/
theorem walkHandler_classification (p : String) (st : Stats) (e : GoErr) (k : EntryKind) :
    (walkHandler false (WalkEvent.mk p (some k) (some e)) st =
      some ((if k = EntryKind.dir
             then { st with directoryErrorCount := st.directoryErrorCount + 1 }
             else { st with fileErrorCount := st.fileErrorCount + 1 }),
            [if k = EntryKind.dir then Line.dirErrLine p e else Line.fileErrLine p e],
            none, none)) ∧
    (walkHandler false (WalkEvent.mk p (some EntryKind.other) none) st =
      some ({ st with ignoredFilesCount := st.ignoredFilesCount + 1 },
            [Line.ignoringLine p], none, none)) := by
  refine ⟨?_, rfl⟩
  cases k <;> rfl

/-- C9: with the normal per-file handler no per-path failure ever stops
the worker — every queued path is handled, in order; only a handler that
returns a non-nil error makes the worker stop consuming further items. -/
theorem queueHandler_error_resilience (fs : String → FileOutcome) (ps : List String)
    (st : Stats) (ls : List Line)
    (h : ∀ p ∈ ps, fileTerminates (fs p) = true) :
    (queueHandler (fileHandlerStep fs) ps (st, ls)).map (fun r => r.2) = some ps ∧
    ∀ (h2 : String → Stats × List Line → Option ((Stats × List Line) × Option GoErr))
      (p : String) (ps2 : List String) (s s2 : Stats × List Line) (e : GoErr),
      h2 p s = some (s2, some e) → queueHandler h2 (p :: ps2) s = some (s2, [p]) := by
  constructor
  · obtain ⟨lF, hq⟩ := queueHandler_fileHandler fs ps st ls h
    rw [hq]
    rfl
  · intro h2 p ps2 s s2 e he
    simp [queueHandler, he]

theorem queueHandler_error_resilience_witness :
    (∀ p ∈ [pathA, pathB], fileTerminates (fsOpenFail p) = true) ∧
      (queueHandler (fileHandlerStep fsOpenFail) [pathA, pathB] (Stats.zero, [])).map
          (fun r => r.2) = some [pathA, pathB] :=
  ⟨by decide,
   (queueHandler_error_resilience fsOpenFail [pathA, pathB] Stats.zero [] (by decide)).1⟩

/-- C10: the error-classification branch of `walkHandler` is total for
every non-nil directory entry, and undefined (a nil dereference through
`dir.IsDir()`) when a traversal error is reported with a nil entry, as
the walk framework does for an unreadable root path. -/
theorem walkHandler_requires_entry (p : String) (st : Stats) (e : GoErr) :
    (∀ k : EntryKind,
      (walkHandler false (WalkEvent.mk p (some k) (some e)) st).isSome = true) ∧
      walkHandler false (WalkEvent.mk p none (some e)) st = none := by
  refine ⟨?_, rfl⟩
  intro k
  cases k <;> rfl
